import Mathlib

/-!
Verification of the fetch-and-synchronize core of the ThreatExchange
repository: a shallow embedding of
`threatexchange/fetcher/apis/fb_threatexchange_api.py` and
`threatexchange/cli/cli_config.py`, with theorems about checkpointing,
cursor reuse, opinion reconciliation and the CLI collaboration cache.
-/

namespace ThreatExchange

/-! ### Python dictionaries as insertion-ordered association lists

Python `dict`s preserve insertion order; assigning to an existing key
replaces the value in place, assigning a fresh key appends. -/

/-- Insertion-ordered association list modelling a Python `dict`:
`dictInsert k v m` replaces the value at `k` in place if `k` is present,
otherwise appends `(k, v)` at the end. -/
def dictInsert [DecidableEq κ] (k : κ) (v : α) : List (κ × α) → List (κ × α)
  | [] => [(k, v)]
  | (k', v') :: rest =>
      if k' = k then (k, v) :: rest else (k', v') :: dictInsert k v rest

/-- Lookup in the association-list model of a Python `dict`. -/
def dictLookup [DecidableEq κ] (k : κ) : List (κ × α) → Option α
  | [] => none
  | (k', v') :: rest => if k' = k then some v' else dictLookup k rest

/-- Models Python `dict.values()` (in insertion order). -/
def dictValues (m : List (κ × α)) : List α := m.map Prod.snd

/-- Models Python `list(d)` / `d.keys()` (in insertion order). -/
def dictKeys (m : List (κ × α)) : List κ := m.map Prod.fst

/-! ### Data model from `fetch_state.py` and `fb_threatexchange_api.py` -/

/-- Modelled from the spec: the opinion categories of
`SignalOpinionCategory` (`fetch_state.py` is not under `src/`):
`category ∈ \x7bTRUE_POSITIVE, FALSE_POSITIVE, WORTH_INVESTIGATING\x7d`. -/
inductive SignalOpinionCategory
  | FALSE_POSITIVE
  | WORTH_INVESTIGATING
  | TRUE_POSITIVE
deriving DecidableEq, Repr

/-- Modelled from the spec: `SignalOpinion` (`fetch_state.py` is not under
`src/`): owner id, category and a tag collection. -/
structure SignalOpinion where
  owner : Int
  category : SignalOpinionCategory
  tags : List String
deriving DecidableEq, Repr

/-- The `REACTION_DESCRIPTOR_ID` class variable of `FBThreatExchangeOpinion`. -/
def REACTION_DESCRIPTOR_ID : Int := -1

/-- The `FBThreatExchangeOpinion` dataclass: a `SignalOpinion` plus the
optional ThreatExchange descriptor id. -/
structure FBThreatExchangeOpinion where
  owner : Int
  category : SignalOpinionCategory
  tags : List String
  descriptor_id : Option Int
deriving DecidableEq, Repr

/-- The `FBThreatExchangeIndicatorRecord` dataclass: a list of opinions. -/
structure FBThreatExchangeIndicatorRecord where
  opinions : List FBThreatExchangeOpinion
deriving DecidableEq, Repr

/-- The two JSON shapes the `tags` field of a descriptor can arrive in:
either a plain list of strings, or the `\x7b"data": [\x7b"text": ...\x7d]\x7d` dict form
produced by `ThreatExchangeAPI.get_threat_descriptors`. -/
inductive TERawTags
  | plain (tags : List String)
  | wrapped (texts : List String)
deriving DecidableEq, Repr

/-- Models Python `sorted` on a list of strings (insertion sort). -/
def sortedInsert (s : String) : List String → List String
  | [] => [s]
  | x :: xs => if s ≤ x then s :: x :: xs else x :: sortedInsert s xs

/-- Models Python `sorted` on a list of strings. -/
def pySorted (l : List String) : List String := l.foldr sortedInsert []

/-- The tag normalisation of `from_threatexchange_json`: a plain list is
kept as is, the dict form is replaced by the sorted list of tag texts. -/
def pyTags : TERawTags → List String
  | .plain l => l
  | .wrapped texts => pySorted texts

/-- One entry of a descriptor's `reactions` list: `key` is the reaction
kind and `value` is the reacting owner's id (after `int(...)`). -/
structure TEReaction where
  key : String
  value : Int
deriving DecidableEq, Repr

/-- One entry of `te_json.raw_json["descriptors"]["data"]`, restricted to
the fields `from_threatexchange_json` reads (after the `int(...)` casts).
A missing `tags` key is represented by `.plain []`, matching
`td_json.get("tags", [])`. -/
structure TEDescriptor where
  id : Int
  owner_id : Int
  status : String
  tags : TERawTags
  reactions : List TEReaction
deriving DecidableEq, Repr

/-- Modelled from the spec: `ThreatUpdateJSON`
(`fb_threatexchange/threat_updates.py` is not under `src/`) surfaces
fields of one `/threat_updates` entry: the deletion marker, the raw
descriptor list, the update time (`last_updated`), the threat type and
the indicator value. -/
structure ThreatUpdateJSON where
  should_delete : Bool
  descriptors : List TEDescriptor
  time : Int
  threat_type : String
  indicator : String
deriving DecidableEq, Repr

/-! ### Opinion reconciliation (`from_threatexchange_json`) -/

/-- Models the Python comparison `(status,) == "MALICIOUS"` on line 92/102:
`status` is bound to the one-element tuple `(td_json["status"],)`, and in
Python a tuple never compares equal to a string, so the comparison is
always false. -/
def pyTupleEqStr (_tup : List String) (_s : String) : Bool := false

/-- The category computed for a descriptor-derived (explicit) opinion,
lines 100-105 of `fb_threatexchange_api.py`. -/
def descriptorCategory (status : String) : SignalOpinionCategory :=
  if pyTupleEqStr [status] "MALICIOUS" then .TRUE_POSITIVE
  else if pyTupleEqStr [status] "NON_MALICIOUS" then .FALSE_POSITIVE
  else .WORTH_INVESTIGATING

/-- One step of the `for reaction in td_json.get("reactions", [])` loop:
`HELPFUL` unconditionally stores `TRUE_POSITIVE`; `DISAGREE_WITH_TAGS`
stores `FALSE_POSITIVE` only when the owner has no implicit opinion yet. -/
def reactionStep (imp : List (Int × SignalOpinionCategory)) (r : TEReaction) :
    List (Int × SignalOpinionCategory) :=
  if r.key = "HELPFUL" then
    dictInsert r.value .TRUE_POSITIVE imp
  else if r.key = "DISAGREE_WITH_TAGS" ∧ dictLookup r.value imp = none then
    dictInsert r.value .FALSE_POSITIVE imp
  else imp

/-- One step of the `for td_json in te_json.raw_json["descriptors"]["data"]`
loop: record the explicit opinion for the descriptor's owner, then fold
the descriptor's reactions into the implicit-opinion dict. -/
def descriptorStep
    (acc : List (Int × FBThreatExchangeOpinion) × List (Int × SignalOpinionCategory))
    (d : TEDescriptor) :
    List (Int × FBThreatExchangeOpinion) × List (Int × SignalOpinionCategory) :=
  (dictInsert d.owner_id
      ⟨d.owner_id, descriptorCategory d.status, pyTags d.tags, some d.id⟩ acc.1,
   d.reactions.foldl reactionStep acc.2)

/-- The `explicit_opinions` and `implicit_opinions` dicts after the
descriptor loop of `from_threatexchange_json`. -/
def buildOpinionMaps (ds : List TEDescriptor) :
    List (Int × FBThreatExchangeOpinion) × List (Int × SignalOpinionCategory) :=
  ds.foldl descriptorStep ([], [])

/-- The `for owner_id, category in implicit_opinions.items()` loop: an
implicit opinion is copied into `explicit_opinions` only when its owner
has no explicit opinion, with empty tags and `REACTION_DESCRIPTOR_ID`. -/
def mergeImplicit (exp : List (Int × FBThreatExchangeOpinion))
    (imp : List (Int × SignalOpinionCategory)) :
    List (Int × FBThreatExchangeOpinion) :=
  imp.foldl
    (fun e p =>
      if (dictLookup p.1 e).isSome then e
      else dictInsert p.1 ⟨p.1, p.2, [], some REACTION_DESCRIPTOR_ID⟩ e)
    exp

/-- The reconciled opinion list of one update: explicit opinions merged
with the implicit opinions of owners lacking an explicit one, in dict
insertion order. -/
def reconciledOpinions (te : ThreatUpdateJSON) : List FBThreatExchangeOpinion :=
  let maps := buildOpinionMaps te.descriptors
  dictValues (mergeImplicit maps.1 maps.2)

/-- `FBThreatExchangeIndicatorRecord.from_threatexchange_json`, lines
79-134: `None` on a tombstone, `None` when reconciliation leaves no
opinions, otherwise the record of reconciled opinions. -/
def from_threatexchange_json (te : ThreatUpdateJSON) :
    Option FBThreatExchangeIndicatorRecord :=
  if te.should_delete then none
  else
    let ops := reconciledOpinions te
    if ops.isEmpty then none
    else some ⟨ops⟩

/-! ### Checkpoint (`FBThreatExchangeCheckpoint`) -/

/-- The `FBThreatExchangeCheckpoint` dataclass: progress of a
`/threat_updates`-backed state. `last_fetch_time` defaults to the wall
clock at construction, which the embedding passes in explicitly. -/
structure FBThreatExchangeCheckpoint where
  update_time : Int
  last_fetch_time : Int
deriving DecidableEq, Repr

/-- `FBThreatExchangeCheckpoint.is_stale`: true when the last fetch is
more than 85 days in the past (`time.time()` is passed in as `now`). -/
def FBThreatExchangeCheckpoint.is_stale (c : FBThreatExchangeCheckpoint)
    (now : Int) : Bool :=
  now - c.last_fetch_time > 3600 * 24 * 85

/-- `FBThreatExchangeCheckpoint.get_progress_timestamp`. -/
def FBThreatExchangeCheckpoint.get_progress_timestamp
    (c : FBThreatExchangeCheckpoint) : Int :=
  c.update_time

/-! ### The connector (`FBThreatExchangeSignalExchangeAPI`) -/

/-- The `FBThreatExchangeCollabConfig` dataclass: the base collaboration
fields plus the ThreatExchange privacy group (sets become lists). -/
structure FBThreatExchangeCollabConfig where
  name : String
  api : String
  enabled : Bool := true
  only_signal_types : List String := []
  not_signal_types : List String := []
  only_owners : List Int := []
  not_owners : List Int := []
  only_tags : List String := []
  not_tags : List String := []
  privacy_group : Int
  app_token_override : Option String := none
deriving DecidableEq, Repr

/-- Modelled from the spec: the remote `/threat_updates` stream behind
`ThreatExchangeAPI.get_threat_updates` (`fb_threatexchange/api.py` is not
under `src/`): for a privacy group and an optional start time it fixes
the sequence of pages the pagination will deliver. -/
def UpdateSource := Int → Option Int → List (List ThreatUpdateJSON)

/-- Modelled from the spec: `_CursoredResponse` paging state
(`fb_threatexchange/api.py` is not under `src/`): `next()` yields the
next page of decoded updates; `done` is true once the pagination has
reached the source's current head. -/
structure CursoredResponse where
  start_time : Option Int
  pages : List (List ThreatUpdateJSON)
deriving DecidableEq, Repr

/-- Modelled from the spec: `cursor.next()` — one page is consumed. -/
def cursorNext (c : CursoredResponse) : List ThreatUpdateJSON × CursoredResponse :=
  match c.pages with
  | [] => ([], c)
  | p :: rest => (p, ⟨c.start_time, rest⟩)

/-- Modelled from the spec: `cursor.done`. -/
def CursoredResponse.done (c : CursoredResponse) : Bool := c.pages.isEmpty

/-- Modelled from the spec: the authenticated `ThreatExchangeAPI` client
(`fb_threatexchange/api.py` is not under `src/`); the connector consults
only its `app_id`. -/
structure ThreatExchangeAPIClient where
  app_id : Int
deriving DecidableEq, Repr

/-- Modelled from the spec: `SimpleFetchDelta` (`fetcher/simple/state.py`
is not under `src/`): a mapping from `(signal_type, indicator_value)` to
an optional record (absence of value = tombstone), the next checkpoint,
and the `done` flag. -/
structure SimpleFetchDelta where
  updates : List ((String × String) × Option FBThreatExchangeIndicatorRecord)
  checkpoint : FBThreatExchangeCheckpoint
  done : Bool
deriving DecidableEq, Repr

/-- The mutable state of a `FBThreatExchangeSignalExchangeAPI` instance:
the optional authenticated client (`self._api`) and the per-collaboration
cursor dict (`self.cursors`). -/
structure FBTEState where
  api : Option ThreatExchangeAPIClient
  cursors : List (String × CursoredResponse)
deriving DecidableEq, Repr

/-- `FBThreatExchangeSignalExchangeAPI.__init__`: without an app token
`self._api` stays `None`; the cursor dict starts empty. Turning a token
string into a client is external, so the constructor takes the optional
client directly. -/
def initAPI (client : Option ThreatExchangeAPIClient) : FBTEState :=
  ⟨client, []⟩

/-- The `api` property, lines 164-168: raises when no app token was
configured. -/
def FBTEState.apiProp (st : FBTEState) : Except String ThreatExchangeAPIClient :=
  match st.api with
  | none => .error "App Developer token not configured."
  | some a => .ok a

/-- `get_own_owner_id`, lines 186-189: `self.api.app_id`. -/
def get_own_owner_id (st : FBTEState) (_collab : FBThreatExchangeCollabConfig) :
    Except String Int :=
  st.apiProp.map (·.app_id)

/-- The running `highest_time = max(update.time, highest_time)` of lines
210-215, starting from `0`. -/
def batchMax (batch : List ThreatUpdateJSON) : Int :=
  batch.foldl (fun h u => max u.time h) 0

/-- Lines 209-230 of `fetch_once`: consume one page from the cursor and
build the `SimpleFetchDelta` — batch records keyed by
`(threat_type, indicator)`, a fresh checkpoint at the batch's highest
update time, and the cursor's `done` flag. -/
def runCursor (c : CursoredResponse) (now : Int) :
    CursoredResponse × SimpleFetchDelta :=
  let step := cursorNext c
  (step.2,
   ⟨step.1.map (fun u => ((u.threat_type, u.indicator), from_threatexchange_json u)),
    ⟨batchMax step.1, now⟩,
    step.2.done⟩)

/-- `fetch_once`, lines 191-230. `source` stands for the remote stream
and `now` for `int(time.time())` at checkpoint construction. A cached
cursor is reused; otherwise pagination starts from the checkpoint's
`update_time` (`None` when the checkpoint is absent), which requires the
`api` property. The advanced cursor is stored back under the
collaboration's name (in Python the cached object mutates in place). -/
def fetch_once (source : UpdateSource) (now : Int) (st : FBTEState)
    (collab : FBThreatExchangeCollabConfig)
    (checkpoint : Option FBThreatExchangeCheckpoint) :
    Except String (FBTEState × SimpleFetchDelta) :=
  let start_time := checkpoint.map (·.update_time)
  match dictLookup collab.name st.cursors with
  | some cursor =>
      let r := runCursor cursor now
      .ok (⟨st.api, dictInsert collab.name r.1 st.cursors⟩, r.2)
  | none =>
      match st.api with
      | none => .error "App Developer token not configured."
      | some _ =>
          let cursor : CursoredResponse :=
            ⟨start_time, source collab.privacy_group start_time⟩
          let r := runCursor cursor now
          .ok (⟨st.api, dictInsert collab.name r.1 st.cursors⟩, r.2)

/-- One requested `fetch_once` call: collaboration, checkpoint argument
and current time. -/
structure FetchCall where
  collab : FBThreatExchangeCollabConfig
  checkpoint : Option FBThreatExchangeCheckpoint
  now : Int

/-- Run a sequence of `fetch_once` calls threading the connector state; a
raised error leaves the state unchanged. -/
def fetchSeq (source : UpdateSource) (st : FBTEState) :
    List FetchCall → List (Except String SimpleFetchDelta)
  | [] => []
  | c :: rest =>
      match fetch_once source c.now st c.collab c.checkpoint with
      | .error e => .error e :: fetchSeq source st rest
      | .ok (st', d) => .ok d :: fetchSeq source st' rest

/-- The argument tuple a write-back wrapper passes to `report_opinion`
(which itself raises `NotImplementedError` on this connector). -/
structure ReportOpinionCall where
  collab : FBThreatExchangeCollabConfig
  s_type : String
  signal : String
  opinion : SignalOpinion
deriving DecidableEq, Repr

/-- `report_true_positive`, lines 252-269: evaluates
`get_own_owner_id(collab)`, builds a `SignalOpinion` with category
`TRUE_POSITIVE` and empty tags, and forwards to `report_opinion`; the
returned value records the arguments of that forwarded call. -/
def report_true_positive (st : FBTEState) (collab : FBThreatExchangeCollabConfig)
    (s_type signal : String) : Except String ReportOpinionCall :=
  match get_own_owner_id st collab with
  | .error e => .error e
  | .ok owner => .ok ⟨collab, s_type, signal, ⟨owner, .TRUE_POSITIVE, []⟩⟩

/-- `report_false_positive`, lines 271-287: as `report_true_positive`,
with category `FALSE_POSITIVE`. -/
def report_false_positive (st : FBTEState) (collab : FBThreatExchangeCollabConfig)
    (s_type signal : String) : Except String ReportOpinionCall :=
  match get_own_owner_id st collab with
  | .error e => .error e
  | .ok owner => .ok ⟨collab, s_type, signal, ⟨owner, .FALSE_POSITIVE, []⟩⟩

/-! ### CLI collaboration-config cache (`cli_config.py`) -/

/-- A collaboration config as resolved by `get_all_collabs` (the
`dataclass_load_dict` output); the cache logic consults only `name`, the
remaining fields are carried opaquely. -/
structure CliCollabConfig where
  name : String
  api : String
  payload : String
deriving DecidableEq, Repr

/-- The `_cache` field of `CliState`: `None` until `get_all_collabs`
first runs, afterwards the dict keyed by collaboration name. -/
structure CliState where
  cache : Option (List (String × CliCollabConfig))
deriving DecidableEq, Repr

/-- `CliState.__init__` leaves `self._cache = None`. -/
def CliState.init : CliState := ⟨none⟩

/-- The `\x7bc.name: c for c in ret\x7d` dict comprehension of line 142. -/
def cacheOfList (disk : List CliCollabConfig) :
    List (String × CliCollabConfig) :=
  disk.foldl (fun m c => dictInsert c.name c m) []

/-- `CliState.get_all_collabs`, lines 113-143: on the first call the
collab directory is read (modelled as the list of configs that parse to a
known type, in directory order) and cached; every later call answers from
the cache without touching the disk. -/
def get_all_collabs (st : CliState) (disk : List CliCollabConfig) :
    CliState × List CliCollabConfig :=
  match st.cache with
  | some m => (st, dictValues m)
  | none =>
      let m := cacheOfList disk
      (⟨some m⟩, dictValues m)

/-- `CollaborationConfigStoreBase.get_collab` (`collab_config.py`): the
first config returned by `get_all_collabs` with a matching name. -/
def get_collab (st : CliState) (disk : List CliCollabConfig) (name : String) :
    CliState × Option CliCollabConfig :=
  let r := get_all_collabs st disk
  (r.1, r.2.find? (fun c => c.name == name))

/-- `get_collab_names_without_loading`, lines 108-111: from the cache
when present, otherwise the raw file paths of the collab directory
(carried as an opaque parameter; no claim depends on that branch). -/
def get_collab_names_without_loading (st : CliState)
    (diskPaths : List String) : List String :=
  match st.cache with
  | some m => dictKeys m
  | none => diskPaths

/-- `update_collab`, lines 145-148: writes the config's JSON file (the
disk is modelled as one entry per file); the cache is not touched. -/
def update_collab (st : CliState) (disk : List CliCollabConfig)
    (c : CliCollabConfig) : CliState × List CliCollabConfig :=
  (st,
   if disk.any (fun d => d.name == c.name) then
     disk.map (fun d => if d.name == c.name then c else d)
   else disk ++ [c])

/-- `delete_collab`, lines 150-152: unlinks the config's JSON file; the
cache is not touched. -/
def delete_collab (st : CliState) (disk : List CliCollabConfig)
    (c : CliCollabConfig) : CliState × List CliCollabConfig :=
  (st, disk.filter (fun d => d.name != c.name))

/-! ### Concrete sample data -/

/-- A collaboration config used for concrete evaluations. -/
def cfgW : FBThreatExchangeCollabConfig :=
  { name := "c", api := "fb_threatexchange", privacy_group := 1 }

/-- An update with one descriptor (owner 7) and one `HELPFUL` reaction by
owner 8. -/
def teW : ThreatUpdateJSON :=
  ⟨false, [⟨10, 7, "UNKNOWN", .plain ["tag"], [⟨"HELPFUL", 8⟩]⟩],
   100, "HASH_PDQ", "abc"⟩

/-- A minimal update with one descriptor and a given update time. -/
def teProbe (tm : Int) : ThreatUpdateJSON :=
  ⟨false, [⟨1, 7, "UNKNOWN", .plain [], []⟩], tm, "HASH_MD5", "x"⟩

/-- An update where owner 9 reacts `DISAGREE_WITH_TAGS` first and
`HELPFUL` second. -/
def teOrder : ThreatUpdateJSON :=
  ⟨false,
   [⟨10, 7, "UNKNOWN", .plain [],
     [⟨"DISAGREE_WITH_TAGS", 9⟩, ⟨"HELPFUL", 9⟩]⟩],
   50, "HASH_PDQ", "def"⟩

/-- A remote stream delivering two one-update pages whose update times
decrease (10, then 5). -/
def srcW : UpdateSource := fun _ _ => [[teProbe 10], [teProbe 5]]

/-- Connector state with a token and no cached cursor. -/
def stW0 : FBTEState := ⟨some ⟨42⟩, []⟩

/-- A cached cursor with one remaining page. -/
def curW : CursoredResponse := ⟨none, [[teProbe 5]]⟩

/-- Connector state with a cached cursor for collaboration `"c"`. -/
def stW : FBTEState := ⟨some ⟨42⟩, [("c", curW)]⟩

/-- Connector state right after construction with a token. -/
def cexState0 : FBTEState := initAPI (some ⟨42⟩)

/-- Expected state after the first `fetch_once` against `srcW`. -/
def cexState1 : FBTEState := ⟨some ⟨42⟩, [("c", ⟨none, [[teProbe 5]]⟩)]⟩

/-- Expected state after the second `fetch_once` against `srcW`. -/
def cexState2 : FBTEState := ⟨some ⟨42⟩, [("c", ⟨none, []⟩)]⟩

/-- The record produced for a `teProbe` update. -/
def cexRecord : FBThreatExchangeIndicatorRecord :=
  ⟨[⟨7, .WORTH_INVESTIGATING, [], some 1⟩]⟩

/-- Expected delta of the first `fetch_once` against `srcW`. -/
def cexDelta1 : SimpleFetchDelta :=
  ⟨[(("HASH_MD5", "x"), some cexRecord)], ⟨10, 0⟩, false⟩

/-- Expected delta of the second `fetch_once` against `srcW`. -/
def cexDelta2 : SimpleFetchDelta :=
  ⟨[(("HASH_MD5", "x"), some cexRecord)], ⟨5, 0⟩, true⟩

/-- Well-formedness of an opinion dict: every stored opinion's `owner`
equals its key, and the keys are distinct. -/
def OpinionMapWF (m : List (Int × FBThreatExchangeOpinion)) : Prop :=
  (∀ p ∈ m, (Prod.snd p).owner = p.1) ∧ (dictKeys m).Nodup

/-! ### Lemmas about the dict model -/

theorem dictLookup_dictInsert_self [DecidableEq κ] (k : κ) (v : α)
    (m : List (κ × α)) : dictLookup k (dictInsert k v m) = some v := by
  induction m with
  | nil => simp [dictInsert, dictLookup]
  | cons p rest ih =>
      obtain ⟨k', v'⟩ := p
      by_cases h : k' = k <;> simp [dictInsert, dictLookup, h, ih]

theorem dictLookup_dictInsert_ne [DecidableEq κ] {j k : κ} (h : j ≠ k)
    (v : α) (m : List (κ × α)) :
    dictLookup j (dictInsert k v m) = dictLookup j m := by
  have hkj : k ≠ j := fun hh => h hh.symm
  induction m with
  | nil => simp [dictInsert, dictLookup, hkj]
  | cons p rest ih =>
      obtain ⟨k', v'⟩ := p
      by_cases hk : k' = k
      · subst hk
        simp [dictInsert, dictLookup, hkj]
      · simp only [dictInsert, if_neg hk, dictLookup]
        by_cases hj : k' = j <;> simp [hj, ih]

theorem mem_dictInsert [DecidableEq κ] {p : κ × α} {k : κ} {v : α}
    {m : List (κ × α)} (hp : p ∈ dictInsert k v m) : p = (k, v) ∨ p ∈ m := by
  induction m with
  | nil => simpa [dictInsert] using hp
  | cons q rest ih =>
      obtain ⟨k', v'⟩ := q
      by_cases h : k' = k
      · rw [dictInsert, if_pos h] at hp
        rcases List.mem_cons.mp hp with h1 | h1
        · exact Or.inl h1
        · exact Or.inr (List.mem_cons_of_mem _ h1)
      · rw [dictInsert, if_neg h] at hp
        rcases List.mem_cons.mp hp with h1 | h1
        · refine Or.inr ?_
          rw [h1]
          exact List.mem_cons_self _ _
        · rcases ih h1 with h2 | h2
          · exact Or.inl h2
          · exact Or.inr (List.mem_cons_of_mem _ h2)

theorem mem_dictKeys_dictInsert [DecidableEq κ] (j k : κ) (v : α)
    (m : List (κ × α)) :
    j ∈ dictKeys (dictInsert k v m) ↔ j = k ∨ j ∈ dictKeys m := by
  induction m with
  | nil => simp [dictInsert, dictKeys]
  | cons p rest ih =>
      obtain ⟨k', v'⟩ := p
      by_cases h : k' = k
      · subst h
        simp [dictInsert, dictKeys]
      · simp only [dictInsert, if_neg h, dictKeys, List.map_cons, List.mem_cons]
        constructor
        · rintro (hj | hj)
          · exact Or.inr (Or.inl hj)
          · rcases (ih.mp hj) with hh | hh
            · exact Or.inl hh
            · exact Or.inr (Or.inr hh)
        · rintro (hj | hj | hj)
          · exact Or.inr (ih.mpr (Or.inl hj))
          · exact Or.inl hj
          · exact Or.inr (ih.mpr (Or.inr hj))

theorem nodup_dictKeys_dictInsert [DecidableEq κ] (k : κ) (v : α)
    {m : List (κ × α)} (hm : (dictKeys m).Nodup) :
    (dictKeys (dictInsert k v m)).Nodup := by
  induction m with
  | nil => simp [dictInsert, dictKeys]
  | cons p rest ih =>
      obtain ⟨k', v'⟩ := p
      simp only [dictKeys, List.map_cons, List.nodup_cons] at hm
      by_cases h : k' = k
      · subst h
        simpa [dictInsert, dictKeys] using hm
      · simp only [dictInsert, if_neg h, dictKeys, List.map_cons, List.nodup_cons]
        refine ⟨fun hmem => ?_, ih hm.2⟩
        rcases (mem_dictKeys_dictInsert k' k v rest).mp hmem with hh | hh
        · exact h hh
        · exact hm.1 hh

theorem dictLookup_eq_some_of_mem [DecidableEq κ] {k : κ} {v : α}
    {m : List (κ × α)} (hmem : (k, v) ∈ m) (hm : (dictKeys m).Nodup) :
    dictLookup k m = some v := by
  induction m with
  | nil => cases hmem
  | cons p rest ih =>
      obtain ⟨k', v'⟩ := p
      simp only [dictKeys, List.map_cons, List.nodup_cons] at hm
      rcases List.mem_cons.mp hmem with hp | hp
      · injection hp with h1 h2
        subst h1
        subst h2
        simp [dictLookup]
      · have hne : k' ≠ k := by
          intro he
          subst he
          exact hm.1 (List.mem_map.mpr ⟨(k', v), hp, rfl⟩)
        simp [dictLookup, hne, ih hp hm.2]

theorem mem_of_dictLookup_eq_some [DecidableEq κ] {k : κ} {v : α}
    {m : List (κ × α)} (h : dictLookup k m = some v) : (k, v) ∈ m := by
  induction m with
  | nil => simp [dictLookup] at h
  | cons p rest ih =>
      obtain ⟨k', v'⟩ := p
      by_cases hk : k' = k
      · subst hk
        simp only [dictLookup, if_true, eq_self_iff_true, Option.some.injEq] at h
        rw [← h]
        exact List.mem_cons_self _ _
      · simp only [dictLookup, if_neg hk] at h
        exact List.mem_cons_of_mem _ (ih h)

/-! ### Invariants of the reconciliation maps -/

theorem opinionMapWF_dictInsert {m : List (Int × FBThreatExchangeOpinion)}
    (hm : OpinionMapWF m) (k : Int) (v : FBThreatExchangeOpinion)
    (hv : v.owner = k) : OpinionMapWF (dictInsert k v m) := by
  refine ⟨fun p hp => ?_, nodup_dictKeys_dictInsert k v hm.2⟩
  rcases mem_dictInsert hp with h | h
  · subst h
    exact hv
  · exact hm.1 p h

theorem nodup_keys_reactionStep (imp : List (Int × SignalOpinionCategory))
    (r : TEReaction) (h : (dictKeys imp).Nodup) :
    (dictKeys (reactionStep imp r)).Nodup := by
  unfold reactionStep
  split
  · exact nodup_dictKeys_dictInsert _ _ h
  split
  · exact nodup_dictKeys_dictInsert _ _ h
  · exact h

theorem nodup_keys_reactions_foldl (rs : List TEReaction) :
    ∀ imp, (dictKeys imp).Nodup →
      (dictKeys (rs.foldl reactionStep imp)).Nodup := by
  induction rs with
  | nil => intro imp h; simpa using h
  | cons r rest ih =>
      intro imp h
      simp only [List.foldl_cons]
      exact ih _ (nodup_keys_reactionStep imp r h)

theorem buildOpinionMaps_wf_aux (ds : List TEDescriptor) :
    ∀ acc : List (Int × FBThreatExchangeOpinion) ×
        List (Int × SignalOpinionCategory),
      OpinionMapWF acc.1 → (dictKeys acc.2).Nodup →
      OpinionMapWF (ds.foldl descriptorStep acc).1 ∧
        (dictKeys (ds.foldl descriptorStep acc).2).Nodup := by
  induction ds with
  | nil => intro acc h1 h2; exact ⟨h1, h2⟩
  | cons d rest ih =>
      intro acc h1 h2
      simp only [List.foldl_cons]
      exact ih (descriptorStep acc d)
        (opinionMapWF_dictInsert h1 d.owner_id _ rfl)
        (nodup_keys_reactions_foldl d.reactions acc.2 h2)

theorem buildOpinionMaps_wf (ds : List TEDescriptor) :
    OpinionMapWF (buildOpinionMaps ds).1 ∧
      (dictKeys (buildOpinionMaps ds).2).Nodup :=
  buildOpinionMaps_wf_aux ds ([], [])
    ⟨fun p hp => absurd hp (List.not_mem_nil p), List.nodup_nil⟩
    List.nodup_nil

theorem opinionMapWF_mergeImplicit (imp : List (Int × SignalOpinionCategory)) :
    ∀ exp, OpinionMapWF exp → OpinionMapWF (mergeImplicit exp imp) := by
  induction imp with
  | nil => intro exp h; exact h
  | cons p rest ih =>
      intro exp h
      simp only [mergeImplicit, List.foldl_cons] at ih ⊢
      refine ih _ ?_
      split
      · exact h
      · exact opinionMapWF_dictInsert h _ _ rfl

theorem dictLookup_mergeImplicit (imp : List (Int × SignalOpinionCategory)) :
    ∀ (exp : List (Int × FBThreatExchangeOpinion)),
      (dictKeys imp).Nodup → ∀ o : Int,
      dictLookup o (mergeImplicit exp imp) =
        match dictLookup o exp with
        | some v => some v
        | none => (dictLookup o imp).map
            (fun c => ⟨o, c, [], some REACTION_DESCRIPTOR_ID⟩) := by
  induction imp with
  | nil =>
      intro exp _ o
      cases h : dictLookup o exp <;> simp [mergeImplicit, dictLookup, h]
  | cons p rest ih =>
      intro exp hn o
      obtain ⟨o₁, c₁⟩ := p
      simp only [dictKeys, List.map_cons, List.nodup_cons] at hn
      simp only [mergeImplicit, List.foldl_cons] at ih ⊢
      by_cases hcase : (dictLookup o₁ exp).isSome
      · rw [if_pos hcase]
        rw [ih exp hn.2 o]
        cases h2 : dictLookup o exp with
        | some v => simp
        | none =>
            have ho : o₁ ≠ o := by
              intro he
              subst he
              rw [h2] at hcase
              simp at hcase
            simp [dictLookup, ho]
      · rw [if_neg hcase]
        rw [ih _ hn.2 o]
        by_cases ho : o = o₁
        · subst ho
          rw [dictLookup_dictInsert_self]
          have h2 : dictLookup o exp = none :=
            Option.not_isSome_iff_eq_none.mp hcase
          simp [h2, dictLookup]
        · rw [dictLookup_dictInsert_ne ho]
          cases h2 : dictLookup o exp with
          | some v => simp
          | none =>
              have ho' : o₁ ≠ o := fun he => ho he.symm
              simp [dictLookup, ho']

theorem dictLookup_owner_of_mem_values {m : List (Int × FBThreatExchangeOpinion)}
    (hwf : OpinionMapWF m) {op : FBThreatExchangeOpinion}
    (hop : op ∈ dictValues m) : dictLookup op.owner m = some op := by
  rcases List.mem_map.mp hop with ⟨⟨pk, pv⟩, hp, hsnd⟩
  have h1 : pv.owner = pk := hwf.1 _ hp
  subst hsnd
  rw [h1]
  exact dictLookup_eq_some_of_mem hp hwf.2

theorem values_owner_eq_keys {m : List (Int × FBThreatExchangeOpinion)}
    (h : ∀ p ∈ m, (Prod.snd p).owner = p.1) :
    (dictValues m).map (fun op => op.owner) = dictKeys m := by
  simp only [dictValues, dictKeys, List.map_map]
  exact List.map_congr_left (fun p hp => h p hp)

theorem mem_dictValues_dictInsert [DecidableEq κ] {op : α} {k : κ} {v : α}
    {m : List (κ × α)} (h : op ∈ dictValues (dictInsert k v m)) :
    op = v ∨ op ∈ dictValues m := by
  rcases List.mem_map.mp h with ⟨p, hp, hsnd⟩
  rcases mem_dictInsert hp with h1 | h1
  · left
    rw [← hsnd, h1]
  · right
    exact List.mem_map.mpr ⟨p, h1, hsnd⟩

/-! ### Claim C2: tombstones and empty reconciliation yield `None` -/

/-- Claim C2: `from_threatexchange_json` returns `None` exactly when the
update is a tombstone (`should_delete`) or when opinion reconciliation
yields zero opinions; otherwise the returned record's opinions are
exactly the reconciled opinions. -/
theorem from_te_json_none_iff (te : ThreatUpdateJSON) :
    (from_threatexchange_json te = none ↔
      te.should_delete = true ∨ reconciledOpinions te = []) ∧
    ∀ r, from_threatexchange_json te = some r →
      r.opinions = reconciledOpinions te := by
  unfold from_threatexchange_json
  by_cases hd : te.should_delete
  · simp [hd]
  · by_cases hops : reconciledOpinions te = []
    · simp [hd, hops]
    · simp only [if_neg (by simp [hd] : ¬te.should_delete = true)]
      constructor
      · simp [List.isEmpty_iff, hops, hd]
      · intro r hr
        rw [if_neg (by simp [List.isEmpty_iff, hops])] at hr
        injection hr with hr
        rw [← hr]

/-- Witness for C2 on `teW`, a non-tombstone with one explicit and one
implicit opinion. -/
theorem from_te_json_none_iff_witness :
    from_threatexchange_json teW =
      some ⟨[⟨7, .WORTH_INVESTIGATING, ["tag"], some 10⟩,
             ⟨8, .TRUE_POSITIVE, [], some (-1)⟩]⟩ ∧
    FBThreatExchangeIndicatorRecord.opinions
        ⟨[⟨7, .WORTH_INVESTIGATING, ["tag"], some 10⟩,
          ⟨8, .TRUE_POSITIVE, [], some (-1)⟩]⟩ = reconciledOpinions teW :=
  ⟨by decide, (from_te_json_none_iff teW).2 _ (by decide)⟩

/-! ### Claim C3: one opinion per owner, explicit overrides implicit -/

/-- Claim C3: the reconciled record holds at most one opinion per owner;
every reconciled opinion is either exactly the explicit (descriptor)
opinion of its owner, or its owner has no explicit opinion and the
opinion is the reaction-derived implicit one. -/
theorem reconciled_unique_owner (te : ThreatUpdateJSON) :
    ((reconciledOpinions te).map (fun op => op.owner)).Nodup ∧
    ∀ op ∈ reconciledOpinions te,
      dictLookup op.owner (buildOpinionMaps te.descriptors).1 = some op ∨
      (dictLookup op.owner (buildOpinionMaps te.descriptors).1 = none ∧
        ∃ c, dictLookup op.owner (buildOpinionMaps te.descriptors).2 = some c ∧
          op = ⟨op.owner, c, [], some REACTION_DESCRIPTOR_ID⟩) := by
  obtain ⟨hwfE, hnI⟩ := buildOpinionMaps_wf te.descriptors
  have hwfM : OpinionMapWF
      (mergeImplicit (buildOpinionMaps te.descriptors).1
        (buildOpinionMaps te.descriptors).2) :=
    opinionMapWF_mergeImplicit _ _ hwfE
  constructor
  · show ((dictValues (mergeImplicit (buildOpinionMaps te.descriptors).1
        (buildOpinionMaps te.descriptors).2)).map (fun op => op.owner)).Nodup
    rw [values_owner_eq_keys hwfM.1]
    exact hwfM.2
  · intro op hop
    have hop' : op ∈ dictValues
        (mergeImplicit (buildOpinionMaps te.descriptors).1
          (buildOpinionMaps te.descriptors).2) := hop
    have hlook := dictLookup_owner_of_mem_values hwfM hop'
    rw [dictLookup_mergeImplicit (buildOpinionMaps te.descriptors).2
      (buildOpinionMaps te.descriptors).1 hnI op.owner] at hlook
    cases hE : dictLookup op.owner (buildOpinionMaps te.descriptors).1 with
    | some v =>
        rw [hE] at hlook
        simp only [Option.some.injEq] at hlook
        left
        rw [hlook]
    | none =>
        rw [hE] at hlook
        right
        refine ⟨rfl, ?_⟩
        cases hI : dictLookup op.owner (buildOpinionMaps te.descriptors).2 with
        | none =>
            rw [hI] at hlook
            simp at hlook
        | some cat =>
            rw [hI] at hlook
            simp only [Option.map] at hlook
            injection hlook with hlook
            exact ⟨cat, rfl, hlook.symm⟩

/-- Witness for C3: in `teW`, owner 7's reconciled opinion is exactly its
explicit descriptor opinion. -/
theorem reconciled_unique_owner_witness :
    dictLookup
        (FBThreatExchangeOpinion.owner
          ⟨7, .WORTH_INVESTIGATING, ["tag"], some 10⟩)
        (buildOpinionMaps teW.descriptors).1 =
      some ⟨7, .WORTH_INVESTIGATING, ["tag"], some 10⟩ ∨
    (dictLookup
        (FBThreatExchangeOpinion.owner
          ⟨7, .WORTH_INVESTIGATING, ["tag"], some 10⟩)
        (buildOpinionMaps teW.descriptors).1 = none ∧
      ∃ c, dictLookup
          (FBThreatExchangeOpinion.owner
            ⟨7, .WORTH_INVESTIGATING, ["tag"], some 10⟩)
          (buildOpinionMaps teW.descriptors).2 = some c ∧
        (⟨7, .WORTH_INVESTIGATING, ["tag"], some 10⟩ :
            FBThreatExchangeOpinion) =
          ⟨FBThreatExchangeOpinion.owner
              ⟨7, .WORTH_INVESTIGATING, ["tag"], some 10⟩,
            c, [], some REACTION_DESCRIPTOR_ID⟩) :=
  (reconciled_unique_owner teW).2
    ⟨7, .WORTH_INVESTIGATING, ["tag"], some 10⟩ (by decide)

/-! ### Claim C8: descriptor status never changes the explicit category -/

theorem explicit_category_aux (ds : List TEDescriptor) :
    ∀ acc : List (Int × FBThreatExchangeOpinion) ×
        List (Int × SignalOpinionCategory),
      (∀ op ∈ dictValues acc.1, op.category = .WORTH_INVESTIGATING) →
      ∀ op ∈ dictValues (ds.foldl descriptorStep acc).1,
        op.category = .WORTH_INVESTIGATING := by
  induction ds with
  | nil => intro acc h; exact h
  | cons d rest ih =>
      intro acc h
      simp only [List.foldl_cons]
      refine ih _ ?_
      intro op hop
      rcases mem_dictValues_dictInsert hop with h1 | h1
      · rw [h1]
        rfl
      · exact h op h1

/-- Claim C8: the status comparison of `from_threatexchange_json` pits the
one-element tuple `(status,)` against a string, which never holds, so a
descriptor-derived explicit opinion has category `WORTH_INVESTIGATING`
for every status value — including `"MALICIOUS"` and `"NON_MALICIOUS"`. -/
theorem descriptor_opinion_always_worth_investigating (status : String)
    (ds : List TEDescriptor) :
    descriptorCategory status = .WORTH_INVESTIGATING ∧
    ∀ op ∈ dictValues (buildOpinionMaps ds).1,
      op.category = .WORTH_INVESTIGATING :=
  ⟨rfl, explicit_category_aux ds ([], []) (by simp [dictValues])⟩

/-- Witness for C8 at status `"MALICIOUS"` and a `"MALICIOUS"` descriptor
for owner 3. -/
theorem descriptor_opinion_always_wi_witness :
    descriptorCategory "MALICIOUS" = .WORTH_INVESTIGATING ∧
    FBThreatExchangeOpinion.category
        ⟨3, .WORTH_INVESTIGATING, [], some 11⟩ = .WORTH_INVESTIGATING :=
  ⟨(descriptor_opinion_always_worth_investigating "MALICIOUS"
      [⟨11, 3, "MALICIOUS", .plain [], []⟩]).1,
   (descriptor_opinion_always_worth_investigating "MALICIOUS"
      [⟨11, 3, "MALICIOUS", .plain [], []⟩]).2 _ (by decide)⟩

/-! ### Claim C9: `HELPFUL` beats `DISAGREE_WITH_TAGS` in any order -/

theorem reactionStep_preserves_tp (imp : List (Int × SignalOpinionCategory))
    (r : TEReaction) (o : Int)
    (h : dictLookup o imp = some .TRUE_POSITIVE) :
    dictLookup o (reactionStep imp r) = some .TRUE_POSITIVE := by
  unfold reactionStep
  by_cases h1 : r.key = "HELPFUL"
  · rw [if_pos h1]
    by_cases ho : r.value = o
    · subst ho
      exact dictLookup_dictInsert_self _ _ _
    · rw [dictLookup_dictInsert_ne (fun he => ho he.symm)]
      exact h
  · rw [if_neg h1]
    split
    · next h2 =>
        have ho : r.value ≠ o := by
          intro he
          rw [he, h] at h2
          exact Option.noConfusion h2.2
        rw [dictLookup_dictInsert_ne (fun he => ho he.symm)]
        exact h
    · exact h

theorem reactions_foldl_preserves_tp (rs : List TEReaction) (o : Int) :
    ∀ imp, dictLookup o imp = some .TRUE_POSITIVE →
      dictLookup o (rs.foldl reactionStep imp) = some .TRUE_POSITIVE := by
  induction rs with
  | nil => intro imp h; simpa using h
  | cons r rest ih =>
      intro imp h
      simp only [List.foldl_cons]
      exact ih _ (reactionStep_preserves_tp imp r o h)

theorem reactions_foldl_helpful (rs : List TEReaction) (o : Int)
    (h : TEReaction.mk "HELPFUL" o ∈ rs) :
    ∀ imp, dictLookup o (rs.foldl reactionStep imp) = some .TRUE_POSITIVE := by
  induction rs with
  | nil => cases h
  | cons r rest ih =>
      intro imp
      simp only [List.foldl_cons]
      rcases List.mem_cons.mp h with h1 | h1
      · cases h1
        apply reactions_foldl_preserves_tp
        unfold reactionStep
        rw [if_pos rfl]
        exact dictLookup_dictInsert_self _ _ _
      · exact ih h1 _

theorem buildOpinionMaps_snd_foldl (ds : List TEDescriptor) :
    ∀ acc : List (Int × FBThreatExchangeOpinion) ×
        List (Int × SignalOpinionCategory),
      (ds.foldl descriptorStep acc).2 =
        ds.foldl (fun i d => d.reactions.foldl reactionStep i) acc.2 := by
  induction ds with
  | nil => intro acc; rfl
  | cons d rest ih =>
      intro acc
      simp only [List.foldl_cons]
      exact ih (descriptorStep acc d)

theorem descriptor_fold_tp_preserved (ds : List TEDescriptor) (o : Int) :
    ∀ imp, dictLookup o imp = some .TRUE_POSITIVE →
      dictLookup o
        (ds.foldl (fun i d => d.reactions.foldl reactionStep i) imp) =
        some .TRUE_POSITIVE := by
  induction ds with
  | nil => intro imp h; simpa using h
  | cons d rest ih =>
      intro imp h
      simp only [List.foldl_cons]
      exact ih _ (reactions_foldl_preserves_tp d.reactions o imp h)

theorem descriptor_fold_helpful (ds : List TEDescriptor) (o : Int)
    (h : ∃ d ∈ ds, TEReaction.mk "HELPFUL" o ∈ d.reactions) :
    ∀ imp, dictLookup o
        (ds.foldl (fun i d => d.reactions.foldl reactionStep i) imp) =
        some .TRUE_POSITIVE := by
  induction ds with
  | nil =>
      rcases h with ⟨d, hd, _⟩
      cases hd
  | cons d rest ih =>
      intro imp
      simp only [List.foldl_cons]
      rcases h with ⟨d', hd', hmem⟩
      rcases List.mem_cons.mp hd' with h1 | h1
      · subst h1
        exact descriptor_fold_tp_preserved rest o _
          (reactions_foldl_helpful _ o hmem imp)
      · exact ih ⟨d', h1, hmem⟩ (d.reactions.foldl reactionStep imp)

/-- Claim C9: if an owner has both a `HELPFUL` and a `DISAGREE_WITH_TAGS`
reaction anywhere in one update, in either order, the reaction-derived
implicit category for that owner is `TRUE_POSITIVE`. -/
theorem helpful_overrides_disagree (te : ThreatUpdateJSON) (o : Int)
    (hH : ∃ d ∈ te.descriptors, TEReaction.mk "HELPFUL" o ∈ d.reactions)
    (_hD : ∃ d ∈ te.descriptors,
      TEReaction.mk "DISAGREE_WITH_TAGS" o ∈ d.reactions) :
    dictLookup o (buildOpinionMaps te.descriptors).2 =
      some .TRUE_POSITIVE := by
  rw [buildOpinionMaps, buildOpinionMaps_snd_foldl]
  exact descriptor_fold_helpful te.descriptors o hH []

/-- Witness for C9 on `teOrder`, where owner 9 reacts
`DISAGREE_WITH_TAGS` before `HELPFUL`. -/
theorem helpful_overrides_disagree_witness :
    dictLookup (9 : Int) (buildOpinionMaps teOrder.descriptors).2 =
      some .TRUE_POSITIVE :=
  helpful_overrides_disagree teOrder 9 (by decide) (by decide)

/-! ### Claim C4: staleness threshold and progress timestamp -/

/-- Claim C4: `is_stale()` holds exactly when more than 85 days
(85 * 24 * 3600 seconds) have elapsed between `last_fetch_time` and the
current time, and `get_progress_timestamp()` returns `update_time`. -/
theorem checkpoint_staleness_spec (c : FBThreatExchangeCheckpoint)
    (now : Int) :
    (c.is_stale now = true ↔ now - c.last_fetch_time > 85 * 24 * 3600) ∧
    c.get_progress_timestamp = c.update_time := by
  refine ⟨?_, rfl⟩
  simp only [FBThreatExchangeCheckpoint.is_stale, decide_eq_true_eq]
  norm_num

/-! ### Claim C6: write-back wrappers -/

/-- Claim C6: `report_true_positive` (resp. `report_false_positive`)
forwards to `report_opinion` the same collaboration, signal type and
signal, together with a `SignalOpinion` owned by
`get_own_owner_id(collab)` of category `TRUE_POSITIVE` (resp.
`FALSE_POSITIVE`) with empty tags. -/
theorem report_wrappers_forward (st : FBTEState)
    (a : ThreatExchangeAPIClient) (collab : FBThreatExchangeCollabConfig)
    (s_type signal : String) (ha : st.api = some a) :
    report_true_positive st collab s_type signal =
      .ok ⟨collab, s_type, signal, ⟨a.app_id, .TRUE_POSITIVE, []⟩⟩ ∧
    report_false_positive st collab s_type signal =
      .ok ⟨collab, s_type, signal, ⟨a.app_id, .FALSE_POSITIVE, []⟩⟩ := by
  constructor <;>
    simp [report_true_positive, report_false_positive, get_own_owner_id,
      FBTEState.apiProp, ha, Except.map]

/-- Witness for C6 with app id 42. -/
theorem report_wrappers_forward_witness :
    report_true_positive stW0 cfgW "pdq" "abc" =
      .ok ⟨cfgW, "pdq", "abc",
        ⟨ThreatExchangeAPIClient.app_id ⟨42⟩, .TRUE_POSITIVE, []⟩⟩ ∧
    report_false_positive stW0 cfgW "pdq" "abc" =
      .ok ⟨cfgW, "pdq", "abc",
        ⟨ThreatExchangeAPIClient.app_id ⟨42⟩, .FALSE_POSITIVE, []⟩⟩ :=
  report_wrappers_forward stW0 ⟨42⟩ cfgW "pdq" "abc" rfl

/-! ### Claim C7: missing app token fails fast -/

theorem fetch_once_no_token (source : UpdateSource) (now : Int)
    (collab : FBThreatExchangeCollabConfig)
    (cp : Option FBThreatExchangeCheckpoint) :
    fetch_once source now (initAPI none) collab cp =
      .error "App Developer token not configured." := rfl

/-- Claim C7: constructing the connector without an app token succeeds,
and every subsequent `fetch_once` (in any sequence of calls) and every
`get_own_owner_id` raises the configuration error without fetching. -/
theorem no_token_fails_fast (source : UpdateSource)
    (collab : FBThreatExchangeCollabConfig) (calls : List FetchCall) :
    initAPI none = ⟨none, []⟩ ∧
    get_own_owner_id (initAPI none) collab =
      .error "App Developer token not configured." ∧
    fetchSeq source (initAPI none) calls =
      calls.map (fun _ => .error "App Developer token not configured.") := by
  refine ⟨rfl, rfl, ?_⟩
  induction calls with
  | nil => rfl
  | cons c rest ih =>
      simp only [fetchSeq, fetch_once_no_token, List.map_cons]
      rw [ih]

/-! ### Claim C10: the CLI collaboration cache is never invalidated -/

theorem cacheOfList_name_key (disk : List CliCollabConfig) :
    ∀ p ∈ cacheOfList disk, (Prod.snd p).name = p.1 := by
  suffices h : ∀ m, (∀ p ∈ m, (Prod.snd p).name = p.1) →
      ∀ p ∈ disk.foldl (fun m c => dictInsert c.name c m) m,
        (Prod.snd p).name = p.1 by
    exact h [] (by simp)
  induction disk with
  | nil => intro m hm; simpa using hm
  | cons d rest ih =>
      intro m hm
      simp only [List.foldl_cons]
      refine ih _ ?_
      intro p hp
      rcases mem_dictInsert hp with h1 | h1
      · subst h1
        rfl
      · exact hm p h1

theorem keys_eq_values_map_name (m : List (String × CliCollabConfig))
    (h : ∀ p ∈ m, (Prod.snd p).name = p.1) :
    dictKeys m = (dictValues m).map (fun x => x.name) := by
  simp only [dictValues, dictKeys, List.map_map]
  exact (List.map_congr_left (fun p hp => h p hp)).symm

/-- Claim C10: once `get_all_collabs` has run, every later
`get_all_collabs`, `get_collab` and `get_collab_names_without_loading`
answers from the cache regardless of the disk contents, and
`update_collab` / `delete_collab` write to disk without touching the
cache — there is no invalidation. -/
theorem cli_collab_cache_persistent
    (disk disk2 disk3 disk4 : List CliCollabConfig) (n : String)
    (c c' : CliCollabConfig) (paths : List String) :
    get_all_collabs (get_all_collabs CliState.init disk).1 disk2 =
      get_all_collabs CliState.init disk ∧
    get_collab (get_all_collabs CliState.init disk).1 disk2 n =
      ((get_all_collabs CliState.init disk).1,
        (get_all_collabs CliState.init disk).2.find?
          (fun x => x.name == n)) ∧
    get_collab_names_without_loading
        (get_all_collabs CliState.init disk).1 paths =
      (get_all_collabs CliState.init disk).2.map (fun x => x.name) ∧
    (update_collab (get_all_collabs CliState.init disk).1 disk3 c).1 =
      (get_all_collabs CliState.init disk).1 ∧
    (delete_collab (get_all_collabs CliState.init disk).1 disk4 c').1 =
      (get_all_collabs CliState.init disk).1 := by
  refine ⟨rfl, rfl, ?_, rfl, rfl⟩
  show dictKeys (cacheOfList disk) =
    (dictValues (cacheOfList disk)).map (fun x => x.name)
  exact keys_eq_values_map_name _ (cacheOfList_name_key disk)

/-! ### Claim C5: cursor creation and reuse in `fetch_once` -/

/-- Claim C5: on the first `fetch_once` for a collaboration name the
pagination is created starting from `checkpoint.update_time` (or `None`
when the checkpoint is absent); on every later call for that name the
cached cursor is reused and the checkpoint argument has no effect. -/
theorem fetch_once_cursor_reuse (source : UpdateSource) (now : Int)
    (st : FBTEState) (collab : FBThreatExchangeCollabConfig)
    (cp cp' : Option FBThreatExchangeCheckpoint) :
    (∀ a, st.api = some a → dictLookup collab.name st.cursors = none →
      fetch_once source now st collab cp =
        .ok (⟨st.api,
              dictInsert collab.name
                (runCursor
                  ⟨cp.map (·.update_time),
                   source collab.privacy_group (cp.map (·.update_time))⟩
                  now).1
                st.cursors⟩,
             (runCursor
               ⟨cp.map (·.update_time),
                source collab.privacy_group (cp.map (·.update_time))⟩
               now).2)) ∧
    (∀ cur, dictLookup collab.name st.cursors = some cur →
      fetch_once source now st collab cp =
        .ok (⟨st.api, dictInsert collab.name (runCursor cur now).1
              st.cursors⟩,
             (runCursor cur now).2) ∧
      fetch_once source now st collab cp =
        fetch_once source now st collab cp') := by
  constructor
  · intro a ha hnone
    simp [fetch_once, hnone, ha]
  · intro cur hcur
    constructor <;> simp [fetch_once, hcur]

/-- Witness for C5: with a cached cursor for `"c"`, the checkpoint
argument is ignored and the cached cursor is advanced. -/
theorem fetch_once_cursor_reuse_witness :
    fetch_once srcW 0 stW cfgW (some ⟨77, 0⟩) =
      .ok (⟨stW.api, dictInsert cfgW.name (runCursor curW 0).1 stW.cursors⟩,
           (runCursor curW 0).2) ∧
    fetch_once srcW 0 stW cfgW (some ⟨77, 0⟩) =
      fetch_once srcW 0 stW cfgW none :=
  (fetch_once_cursor_reuse srcW 0 stW cfgW (some ⟨77, 0⟩) none).2
    curW (by decide)

/-! ### Claim C1: checkpoint is the per-batch maximum, not monotone -/

theorem le_foldlMax (p : List ThreatUpdateJSON) :
    ∀ acc : Int, acc ≤ p.foldl (fun h u => max u.time h) acc := by
  induction p with
  | nil => intro acc; simp
  | cons u rest ih =>
      intro acc
      simp only [List.foldl_cons]
      exact le_trans (le_max_right u.time acc) (ih _)

theorem time_le_foldlMax {u : ThreatUpdateJSON} (p : List ThreatUpdateJSON)
    (h : u ∈ p) :
    ∀ acc : Int, u.time ≤ p.foldl (fun h u => max u.time h) acc := by
  induction p with
  | nil => cases h
  | cons v rest ih =>
      intro acc
      simp only [List.foldl_cons]
      rcases List.mem_cons.mp h with h1 | h1
      · rw [h1]
        exact le_trans (le_max_left v.time acc) (le_foldlMax rest _)
      · exact ih h1 _

theorem foldlMax_le (p : List ThreatUpdateJSON) (x : Int) :
    ∀ acc : Int, acc ≤ x → (∀ u ∈ p, u.time ≤ x) →
      p.foldl (fun h u => max u.time h) acc ≤ x := by
  induction p with
  | nil => intro acc hacc _; simpa using hacc
  | cons u rest ih =>
      intro acc hacc h
      simp only [List.foldl_cons]
      exact ih _ (max_le (h u (List.mem_cons_self _ _)) hacc)
        (fun v hv => h v (List.mem_cons_of_mem _ hv))

theorem batchMax_nonneg (p : List ThreatUpdateJSON) : 0 ≤ batchMax p :=
  le_foldlMax p 0

theorem batchMax_le_batchMax {p1 p2 : List ThreatUpdateJSON}
    (hne : p2 ≠ [])
    (hmono : ∀ u ∈ p1, ∀ v ∈ p2, u.time ≤ v.time) :
    batchMax p1 ≤ batchMax p2 := by
  obtain ⟨v, hv⟩ := List.exists_mem_of_ne_nil p2 hne
  exact foldlMax_le p1 (batchMax p2) 0 (batchMax_nonneg p2)
    (fun u hu => le_trans (hmono u hu v hv) (time_le_foldlMax p2 hv 0))

/-- Counterexample to C1 as stated: against a stream whose second page
carries a lower update time (10, then 5), the second `fetch_once` of the
same pass returns a checkpoint whose `update_time` is strictly below the
first one's. -/
theorem fetch_once_checkpoint_decreases :
    fetch_once srcW 0 cexState0 cfgW none = .ok (cexState1, cexDelta1) ∧
    fetch_once srcW 0 cexState1 cfgW none = .ok (cexState2, cexDelta2) ∧
    cexDelta2.checkpoint.update_time < cexDelta1.checkpoint.update_time :=
  ⟨rfl, rfl, by decide⟩

/-- Claim C1 (amended): each call's checkpoint `update_time` equals the
maximum update time of that call's batch (the fold of `max` seeded with
0); across consecutive calls of one pass it is non-decreasing provided
the later batch is non-empty and the stream delivers update times in
non-decreasing order across batches — unconditionally it can decrease,
because `highest_time` restarts at 0 on every call. -/
theorem fetch_once_checkpoint_batch_max (source : UpdateSource)
    (a : ThreatExchangeAPIClient) (collab : FBThreatExchangeCollabConfig)
    (s : Option Int) (p1 p2 : List ThreatUpdateJSON)
    (rest : List (List ThreatUpdateJSON))
    (cp cp' : Option FBThreatExchangeCheckpoint) (now now' : Int)
    (hne : p2 ≠ [])
    (hmono : ∀ u ∈ p1, ∀ v ∈ p2, u.time ≤ v.time) :
    ∃ st1 st2 d1 d2,
      fetch_once source now
          ⟨some a, [(collab.name, ⟨s, p1 :: p2 :: rest⟩)]⟩ collab cp =
        .ok (st1, d1) ∧
      fetch_once source now' st1 collab cp' = .ok (st2, d2) ∧
      d1.checkpoint.update_time = batchMax p1 ∧
      d2.checkpoint.update_time = batchMax p2 ∧
      d1.checkpoint.update_time ≤ d2.checkpoint.update_time := by
  refine ⟨⟨some a, [(collab.name, ⟨s, p2 :: rest⟩)]⟩,
          ⟨some a, [(collab.name, ⟨s, rest⟩)]⟩,
          ⟨p1.map fun u =>
              ((u.threat_type, u.indicator), from_threatexchange_json u),
           ⟨batchMax p1, now⟩, (p2 :: rest).isEmpty⟩,
          ⟨p2.map fun u =>
              ((u.threat_type, u.indicator), from_threatexchange_json u),
           ⟨batchMax p2, now'⟩, rest.isEmpty⟩,
          ?_, ?_, rfl, rfl, batchMax_le_batchMax hne hmono⟩
  · simp [fetch_once, dictLookup, dictInsert, runCursor, cursorNext,
      CursoredResponse.done]
  · simp [fetch_once, dictLookup, dictInsert, runCursor, cursorNext,
      CursoredResponse.done]

/-- Witness for the amended C1 on a well-ordered stream (times 3 then
9). -/
theorem fetch_once_checkpoint_batch_max_witness :
    ∃ st1 st2 d1 d2,
      fetch_once srcW 0
          ⟨some ⟨42⟩, [(cfgW.name, ⟨none, [teProbe 3] :: [teProbe 9] :: []⟩)]⟩
          cfgW none =
        .ok (st1, d1) ∧
      fetch_once srcW 1 st1 cfgW none = .ok (st2, d2) ∧
      d1.checkpoint.update_time = batchMax [teProbe 3] ∧
      d2.checkpoint.update_time = batchMax [teProbe 9] ∧
      d1.checkpoint.update_time ≤ d2.checkpoint.update_time :=
  fetch_once_checkpoint_batch_max srcW ⟨42⟩ cfgW none [teProbe 3]
    [teProbe 9] [] none none 0 1 (by decide) (by decide)

end ThreatExchange
